import Mathlib

/-!
Verification of the Offline-music-player core: a shallow embedding of the
Song/Playlist data model (src/types.ts), the IndexedDB-backed library store
(src/services/db.ts), the queue builder, playback handlers and play-count
tracker of src/App.tsx, together with theorems settling the specified
properties of these operations.
-/

namespace MusicPlayer

/-- Song record from src/types.ts. The raw `file : File` media handle is not
representable and is never read by the verified operations; every other field
is kept. JS number fields holding positions and durations are modelled as
rationals; `playCount` and the timestamps are non-negative integers. -/
structure Song where
  id : String
  fileName : String
  title : String
  artist : String
  album : String
  duration : ℚ
  playCount : Nat
  dateAdded : Nat
deriving DecidableEq

instance : Inhabited Song := ⟨⟨"", "", "", "", "", 0, 0, 0⟩⟩

/-- Playlist record from src/types.ts. -/
structure Playlist where
  id : Nat
  name : String
  songIds : List String
  dateCreated : Nat
deriving DecidableEq

/-- ShuffleMode from src/types.ts. -/
inductive ShuffleMode
  | none
  | random
  | weighted
deriving DecidableEq

/-- RepeatMode from src/types.ts. -/
inductive RepeatMode
  | none
  | one
  | all
deriving DecidableEq

/-! Library store, src/services/db.ts. The songs object store is keyed by the
`id` field; it is modelled as a list of records in insertion order. -/

/-- Lookup by primary key in the songs store (IndexedDB `get` on keyPath id). -/
def storeGet (store : List Song) (songId : String) : Option Song :=
  store.find? (fun s => s.id == songId)

/-- IndexedDB `put`: overwrite the record whose key equals `song.id` when one
is present, otherwise insert a fresh record. -/
def storePut (store : List Song) (song : Song) : List Song :=
  if store.any (fun s => s.id == song.id) then
    store.map (fun s => if s.id == song.id then song else s)
  else
    store ++ [song]

/-- addSongs from src/services/db.ts: one readwrite transaction issuing a
`put` for each song of the batch, in batch order. -/
def addSongs (store : List Song) (songs : List Song) : List Song :=
  songs.foldl storePut store

/-- incrementPlayCount from src/services/db.ts: inside one readwrite
transaction, `get` the song by id; when present, bump its playCount by one and
`put` it back; a missing id leaves the store untouched. The whole transaction
is a single atomic step of the embedding, covering both the read and the
write. -/
def incrementPlayCount (store : List Song) (songId : String) : List Song :=
  match storeGet store songId with
  | some song => storePut store { song with playCount := song.playCount + 1 }
  | none => store

/-- Number of stored records whose key equals the given id. -/
def countId (store : List Song) (songId : String) : Nat :=
  (store.filter (fun s => s.id == songId)).length

/-! Queue builder: getShuffledQueue from src/App.tsx, lines 330-346. The
source draws from Math.random(); the embedding threads an explicit stream
`rand : Nat → ℚ` of draws, consumed in call order. -/

/-- Math.floor (r * n) for a draw r, as in the Fisher-Yates index
j = Math.floor(Math.random() * (i + 1)). -/
def floorScale (r : ℚ) (n : Nat) : Nat :=
  (r * (n : ℚ)).floor.toNat

/-- The destructuring swap [queue[i], queue[j]] = [queue[j], queue[i]] of
getShuffledQueue; a position outside the list leaves it unchanged (the loop
only produces in-range positions). -/
def listSwap (l : List Song) (i j : Nat) : List Song :=
  match l.get? i, l.get? j with
  | some a, some b => (l.set i b).set j a
  | _, _ => l

/-- Fisher-Yates loop of getShuffledQueue for mode random: the counter is the
loop variable i counting down to 1; k indexes the stream of random draws in
consumption order. -/
def fyLoop (rand : Nat → ℚ) : Nat → Nat → List Song → List Song
  | _, 0, l => l
  | k, m + 1, l => fyLoop rand (k + 1) m (listSwap l (m + 1) (floorScale (rand k) (m + 2)))

/-- The totalPlayCount reduce of getShuffledQueue (mode weighted). -/
def totalPlayCount (queue : List Song) : Nat :=
  queue.foldl (fun sum song => sum + song.playCount) 0

/-- The JS weight (totalPlayCount - playCount) || 1: a difference of JS
numbers, with a falsy (zero) difference replaced by 1. -/
def jsWeight (total : Nat) (s : Song) : ℚ :=
  if ((total : ℚ) - (s.playCount : ℚ)) = 0 then 1 else ((total : ℚ) - (s.playCount : ℚ))

/-- The comparator passed to queue.sort for mode weighted: every invocation
draws two fresh values from the stream (the left operand of the subtraction
first), returning rand k * weightB - rand (k+1) * weightA together with the
advanced stream position. -/
def weightedCompare (total : Nat) (rand : Nat → ℚ) (k : Nat) (a b : Song) : ℚ × Nat :=
  (rand k * jsWeight total b - rand (k + 1) * jsWeight total a, k + 2)

/-- Model of Array.prototype.sort with an impure comparator: stable insertion
sort threading the stream position through every comparator call; a negative
comparator value places the inserted element in front of the compared one. -/
def insertSorted (cmp : Nat → Song → Song → ℚ × Nat) : Nat → Song → List Song → List Song × Nat
  | k, a, [] => ([a], k)
  | k, a, b :: rest =>
      if (cmp k a b).1 < 0 then
        (a :: b :: rest, (cmp k a b).2)
      else
        ((b :: (insertSorted cmp (cmp k a b).2 a rest).1), (insertSorted cmp (cmp k a b).2 a rest).2)

/-- Insertion sort driver for `insertSorted`, threading the stream position. -/
def sortWithCmp (cmp : Nat → Song → Song → ℚ × Nat) : Nat → List Song → List Song × Nat
  | k, [] => ([], k)
  | k, a :: rest =>
      insertSorted cmp (sortWithCmp cmp k rest).2 a (sortWithCmp cmp k rest).1

/-- Weighted branch of getShuffledQueue: the total play count, then
queue.sort with the two-draw comparator. The second component is the final
stream position, i.e. the number of random draws consumed, starting at 0. -/
def weightedShuffle (rand : Nat → ℚ) (queue : List Song) : List Song × Nat :=
  sortWithCmp (weightedCompare (totalPlayCount queue) rand) 0 queue

/-- getShuffledQueue from src/App.tsx: the spread copy of the source is the
returned list; Fisher-Yates for mode random, the impure weighted sort for
mode weighted, and the copy unchanged for mode none. -/
def getShuffledQueue (mode : ShuffleMode) (rand : Nat → ℚ) (sourceQueue : List Song) : List Song :=
  match mode with
  | .none => sourceQueue
  | .random => fyLoop rand 0 (sourceQueue.length - 1) sourceQueue
  | .weighted => (weightedShuffle rand sourceQueue).1

/-! Playback controller state and handlers, src/App.tsx. `currentTime` is the
stored React currentTime state; `audioTime` is the playback position of the
HTMLAudioElement behind audioRef, whose seek algorithm clamps an assigned
position to [0, duration]. The queue pointer is a JS signed integer: -1 means
no cursor. -/

/-- The active view selector of App: the whole library or one playlist. -/
inductive ActiveView
  | library
  | playlistView (id : Nat)
deriving DecidableEq

/-- The React state of App read and written by the verified handlers. -/
structure AppState where
  songs : List Song
  playlists : List Playlist
  activeView : ActiveView
  playQueue : List Song
  currentSongIndex : Int
  isPlaying : Bool
  currentTime : ℚ
  audioTime : ℚ
  duration : ℚ
  shuffleMode : ShuffleMode
  repeatMode : RepeatMode
deriving DecidableEq

/-- playNextSong from src/App.tsx. For repeatMode one the audio element is
rewound to 0 and played again; the queue pointer and the playing flag are not
touched. Otherwise the pointer advances; past the end it wraps to 0 for
repeat all, and for the other modes playback stops (playing := false) with
the pointer left where it was. -/
def playNextSong (st : AppState) : AppState :=
  if st.playQueue.length = 0 then st
  else if st.repeatMode = .one then { st with audioTime := 0 }
  else if (st.playQueue.length : Int) ≤ st.currentSongIndex + 1 then
    if st.repeatMode = .all then { st with currentSongIndex := 0 }
    else { st with isPlaying := false }
  else { st with currentSongIndex := st.currentSongIndex + 1 }

/-- playPrevSong from src/App.tsx: an audio position beyond 3 seconds rewinds
the current track without moving the pointer; otherwise the pointer moves
back, wrapping to the last index only for repeat all and staying put at the
front for the other modes. -/
def playPrevSong (st : AppState) : AppState :=
  if st.playQueue.length = 0 then st
  else if 3 < st.audioTime then { st with audioTime := 0 }
  else if st.currentSongIndex - 1 < 0 then
    if st.repeatMode = .all then { st with currentSongIndex := (st.playQueue.length : Int) - 1 }
    else st
  else { st with currentSongIndex := st.currentSongIndex - 1 }

/-- handleSeek from src/App.tsx: the raw time is assigned to the audio
element, whose seek algorithm clamps it to [0, duration]; the same raw,
unclamped time is stored with setCurrentTime. The playing flag is untouched. -/
def handleSeek (st : AppState) (time : ℚ) : AppState :=
  { st with
    audioTime := min (max time 0) st.duration
    currentTime := time }

/-- Array.prototype.findIndex over song ids: index of the first match, -1
when there is none. -/
def jsFindIndex (l : List Song) (songId : String) : Int :=
  match l.findIdx? (fun s => s.id == songId) with
  | some i => (i : Int)
  | Option.none => -1

/-- Mode cycle of toggleShuffle, in source order. -/
def shuffleModes : List ShuffleMode := [.none, .random, .weighted]

/-- toggleShuffle from src/App.tsx. setShuffleMode(newMode) only schedules a
state update; the getShuffledQueue closure invoked in the same handler was
memoized by useCallback with the previous shuffleMode, so the rebuild below
runs under st.shuffleMode, not under newMode. playQueue[currentSongIndex] is
assumed in range by the source (its non-null use of currentSong.id); a
findIndex miss yields the pointer -1. In the revert-to-none branch the
source resolves playlist song ids with a non-null assertion; an unresolvable
id is modelled as dropped. -/
def toggleShuffle (rand : Nat → ℚ) (st : AppState) : AppState :=
  let newMode :=
    shuffleModes.getD ((shuffleModes.findIdx (fun m => m == st.shuffleMode) + 1)
      % shuffleModes.length) .none
  let st1 := { st with shuffleMode := newMode }
  if newMode ≠ .none ∧ 0 < st.playQueue.length then
    let currentSong := st.playQueue.getD st.currentSongIndex.toNat default
    let newQueue := getShuffledQueue st.shuffleMode rand st.playQueue
    { st1 with
      playQueue := newQueue
      currentSongIndex := jsFindIndex newQueue currentSong.id }
  else if newMode = .none ∧ 0 < st.playQueue.length then
    let originalList :=
      match st.activeView with
      | .library => st.songs
      | .playlistView pid =>
        match st.playlists.find? (fun p => p.id == pid) with
        | some p => p.songIds.filterMap (fun sid => st.songs.find? (fun s => s.id == sid))
        | Option.none => []
    let currentSong := st.playQueue.getD st.currentSongIndex.toNat default
    { st1 with
      playQueue := originalList
      currentSongIndex := jsFindIndex originalList currentSong.id }
  else st1

/-! Play-count tracker: the useEffect of src/App.tsx, lines 170-188. -/

/-- The element read playQueue[currentSongIndex] with a JS signed index:
undefined for a negative or out-of-range index. -/
def queueGet (q : List Song) (i : Int) : Option Song :=
  if i < 0 then Option.none else q.get? i.toNat

/-- One run of the play-count useEffect (it re-runs on every currentTime,
isPlaying, currentSongIndex or playQueue change). `tracked` is the
playCountTrackedRef set; `now` is the value of Date.now() at this run.
Returns the new tracked set and whether this run called incrementPlayCount.
The threshold PLAY_COUNT_THRESHOLD_S is 5 seconds. -/
def playCountEffect (tracked : List String) (playQueue : List Song)
    (currentSongIndex : Int) (isPlaying : Bool) (currentTime : ℚ) (now : Nat) :
    List String × Bool :=
  match queueGet playQueue currentSongIndex with
  | Option.none => (tracked, false)
  | some currentSong =>
    let songPlaybackId := currentSong.id ++ "-" ++ toString now
    let afterCount :=
      if isPlaying ∧ 5 ≤ currentTime ∧ ¬ songPlaybackId ∈ tracked then
        (songPlaybackId :: tracked, true)
      else (tracked, false)
    if ¬ isPlaying ∧ currentSongIndex ≠ -1 then ([], afterCount.2)
    else afterCount

/-- Fold the play-count effect over a list of (currentTime, Date.now())
position updates for a fixed queue, pointer and playing flag, starting from
an empty tracked set and counting the incrementPlayCount calls issued. -/
def trackerRun (playQueue : List Song) (currentSongIndex : Int) (isPlaying : Bool)
    (updates : List (ℚ × Nat)) : List String × Nat :=
  updates.foldl
    (fun acc u =>
      ((playCountEffect acc.1 playQueue currentSongIndex isPlaying u.1 u.2).1,
        acc.2 + if (playCountEffect acc.1 playQueue currentSongIndex isPlaying u.1 u.2).2
          then 1 else 0))
    ([], 0)

/-! Definitions taken from the wording of the specification, for comparison
with the source-derived definitions above. -/

/-- Modelled from the spec: the per-song weight max(total - playCount, 1) the
specification states for the weighted shuffle. -/
def specWeight (total : Nat) (s : Song) : ℚ :=
  max ((total : ℚ) - (s.playCount : ℚ)) 1

/-- Modelled from the spec: clamping of a seek target to [0, duration]. -/
def specClamp (time duration : ℚ) : ℚ :=
  min (max time 0) duration

/-! Concrete records used by witnesses and counterexamples. -/

/-- Concrete song with id a. -/
def songA : Song := ⟨"a", "a.mp3", "A", "artist1", "album1", 100, 0, 1⟩

/-- Concrete song with id b. -/
def songB : Song := ⟨"b", "b.mp3", "B", "artist1", "album1", 100, 0, 2⟩

/-- Concrete song with id c. -/
def songC : Song := ⟨"c", "c.mp3", "C", "artist1", "album1", 100, 0, 3⟩

/-- Concrete single-song state, pointer on its last track, repeat none. -/
def stEnd : AppState :=
  { songs := [songA], playlists := [], activeView := .library,
    playQueue := [songA], currentSongIndex := 0, isPlaying := true,
    currentTime := 0, audioTime := 0, duration := 100,
    shuffleMode := .none, repeatMode := .none }

/-- Concrete two-song state, pointer on the second track, 5 seconds in. -/
def stMid : AppState :=
  { songs := [songA, songB], playlists := [], activeView := .library,
    playQueue := [songA, songB], currentSongIndex := 1, isPlaying := true,
    currentTime := 5, audioTime := 5, duration := 100,
    shuffleMode := .none, repeatMode := .none }

/-- Concrete two-song state with shuffle off, pointer on the first track. -/
def stShuffle : AppState :=
  { songs := [songA, songB], playlists := [], activeView := .library,
    playQueue := [songA, songB], currentSongIndex := 0, isPlaying := true,
    currentTime := 0, audioTime := 0, duration := 100,
    shuffleMode := .none, repeatMode := .none }

/-! Store lemmas. -/

/-- Overwriting every record keyed by song.id makes the keyed lookup return
the new record, provided some record with that key is present. -/
theorem find?_map_overwrite (store : List Song) (song : Song)
    (h : store.any (fun s => s.id == song.id) = true) :
    (store.map (fun s => if s.id == song.id then song else s)).find?
      (fun s => s.id == song.id) = some song := by
  induction store with
  | nil => simp at h
  | cons x rest ih =>
    by_cases hx : x.id = song.id
    · simp [List.find?_cons, hx]
    · have hb : (x.id == song.id) = false := by
        simp [beq_eq_false_iff_ne, hx]
      simp only [List.any_cons, hb, Bool.false_or] at h
      simpa [List.find?_cons, hb, hx] using ih h

/-- Keyed lookup after a put at the same key returns the new record. -/
theorem storeGet_storePut_self (store : List Song) (song : Song) :
    storeGet (storePut store song) song.id = some song := by
  unfold storeGet storePut
  by_cases h : store.any (fun s => s.id == song.id) = true
  · rw [if_pos h]
    exact find?_map_overwrite store song h
  · rw [if_neg h]
    have hnone : store.find? (fun s => s.id == song.id) = none := by
      rw [List.find?_eq_none]
      intro x hx hpx
      exact h (List.any_eq_true.mpr ⟨x, hx, hpx⟩)
    rw [List.find?_append, hnone]
    simp

/-- Keyed lookup only returns records carrying that key. -/
theorem storeGet_id (store : List Song) (songId : String) (s : Song)
    (h : storeGet store songId = some s) : s.id = songId := by
  have := List.find?_some h
  simpa [beq_iff_eq] using this

/-- C6: for every song identity stored with playCount p, n sequential
non-overlapping calls of incrementPlayCount on that identity leave the stored
playCount at p + n; each call is one atomic read-modify-write transaction of
the embedding, mirroring the single transaction scope of the source. -/
theorem incrementPlayCount_sequential (store : List Song) (songId : String) (s : Song)
    (h : storeGet store songId = some s) (n : Nat) :
    storeGet ((fun st => incrementPlayCount st songId)^[n] store) songId =
      some { s with playCount := s.playCount + n } := by
  induction n generalizing store s with
  | zero =>
    simpa using h
  | succ n ih =>
    have hid : s.id = songId := storeGet_id store songId s h
    have hstep : incrementPlayCount store songId =
        storePut store { s with playCount := s.playCount + 1 } := by
      unfold incrementPlayCount
      rw [h]
    have hget : storeGet (incrementPlayCount store songId) songId =
        some { s with playCount := s.playCount + 1 } := by
      rw [hstep]
      have := storeGet_storePut_self store { s with playCount := s.playCount + 1 }
      simpa [hid] using this
    have := ih (incrementPlayCount store songId) { s with playCount := s.playCount + 1 } hget
    rw [Function.iterate_succ_apply]
    simpa [Nat.add_assoc, Nat.add_comm 1 n] using this

/-- Witness for the sequential increment theorem at a concrete store. -/
theorem incrementPlayCount_sequential_witness :
    storeGet [songA] "a" = some songA ∧
    storeGet ((fun st => incrementPlayCount st "a")^[3] [songA]) "a" =
      some { songA with playCount := songA.playCount + 3 } :=
  ⟨by with_unfolding_all decide,
   incrementPlayCount_sequential [songA] "a" songA (by with_unfolding_all decide) 3⟩

/-- Overwriting every record keyed by song.id keeps the number of records
with that key unchanged. -/
theorem countId_map_overwrite (store : List Song) (song : Song) :
    countId (store.map (fun s => if s.id == song.id then song else s)) song.id =
      countId store song.id := by
  induction store with
  | nil => rfl
  | cons x rest ih =>
    by_cases hx : x.id = song.id
    · simpa [countId, List.filter_cons, hx] using ih
    · have hb : (x.id == song.id) = false := by
        simp [beq_eq_false_iff_ne, hx]
      simpa [countId, List.filter_cons, hb, hx] using ih

/-- Number of records at a key after a put: one when the key was absent, the
previous count otherwise. -/
theorem countId_storePut_self (store : List Song) (song : Song) :
    countId (storePut store song) song.id = max (countId store song.id) 1 := by
  unfold storePut
  by_cases h : store.any (fun s => s.id == song.id) = true
  · rw [if_pos h, countId_map_overwrite]
    obtain ⟨x, hx, hpx⟩ := List.any_eq_true.mp h
    have hpos : 0 < countId store song.id := by
      have : x ∈ store.filter (fun s => s.id == song.id) :=
        List.mem_filter.mpr ⟨hx, hpx⟩
      have := List.length_pos.mpr (List.ne_nil_of_mem this)
      simpa [countId] using this
    omega
  · have hfil : store.filter (fun s => s.id == song.id) = [] := by
      rw [List.filter_eq_nil_iff]
      intro x hx hpx
      exact h (List.any_eq_true.mpr ⟨x, hx, hpx⟩)
    have hzero : countId store song.id = 0 := by simp [countId, hfil]
    rw [if_neg h, hzero]
    simp [countId, List.filter_append, hfil]

/-- C7: upserting is idempotent by identity: submitting a record and then a
record with the same identity again leaves exactly one stored record for that
identity, and the later submission is the one the store returns. The store is
assumed not to hold duplicate records for the key beforehand (stores built by
addSongs never do). -/
theorem addSongs_idempotent (store : List Song) (s t : Song)
    (hid : t.id = s.id) (hwf : countId store s.id ≤ 1) :
    countId (addSongs store [s, t]) s.id = 1 ∧
    storeGet (addSongs store [s, t]) s.id = some t := by
  have hunfold : addSongs store [s, t] = storePut (storePut store s) t := rfl
  constructor
  · rw [hunfold]
    have h1 : countId (storePut store s) s.id = max (countId store s.id) 1 :=
      countId_storePut_self store s
    have h2 : countId (storePut (storePut store s) t) t.id =
        max (countId (storePut store s) t.id) 1 :=
      countId_storePut_self (storePut store s) t
    rw [hid] at h2
    rw [h2, h1]
    omega
  · rw [hunfold]
    have := storeGet_storePut_self (storePut store s) t
    rwa [hid] at this

/-- Witness for upsert idempotence on the empty store. -/
theorem addSongs_idempotent_witness :
    countId (addSongs [] [songA, songA]) songA.id = 1 ∧
    storeGet (addSongs [] [songA, songA]) songA.id = some songA :=
  addSongs_idempotent [] songA songA rfl (by with_unfolding_all decide)

/-- C10: incrementPlayCount on an identity absent from the store completes
and returns the store unchanged: no record is created or modified. -/
theorem incrementPlayCount_missing_id (store : List Song) (songId : String)
    (h : storeGet store songId = none) :
    incrementPlayCount store songId = store := by
  unfold incrementPlayCount
  rw [h]

/-- Witness for the missing-identity increment on a concrete store. -/
theorem incrementPlayCount_missing_id_witness :
    incrementPlayCount [songA] "zzz" = [songA] :=
  incrementPlayCount_missing_id [songA] "zzz" (by with_unfolding_all decide)

/-! Permutation lemmas for the queue builder. -/

/-- Inserting with any (even impure) comparator permutes: the result of one
insertion is the inserted element together with the old list. -/
theorem insertSorted_perm (cmp : Nat → Song → Song → ℚ × Nat) (k : Nat) (a : Song)
    (l : List Song) : (insertSorted cmp k a l).1.Perm (a :: l) := by
  induction l generalizing k with
  | nil => simp [insertSorted]
  | cons b rest ih =>
    simp only [insertSorted]
    split
    · exact List.Perm.refl _
    · exact ((ih _).cons b).trans (List.Perm.swap a b rest)

/-- The comparator-threading insertion sort permutes its input. -/
theorem sortWithCmp_perm (cmp : Nat → Song → Song → ℚ × Nat) (k : Nat)
    (l : List Song) : (sortWithCmp cmp k l).1.Perm l := by
  induction l generalizing k with
  | nil => exact List.Perm.refl _
  | cons a rest ih =>
    exact (insertSorted_perm cmp (sortWithCmp cmp k rest).2 a
      (sortWithCmp cmp k rest).1).trans ((ih k).cons a)

/-- Setting a position whose old entry is carried along in front permutes. -/
theorem cons_set_perm (xs : List Song) (j : Nat) (b alt : Song)
    (h : xs.get? j = some b) : (b :: xs.set j alt).Perm (alt :: xs) := by
  induction xs generalizing j with
  | nil => simp at h
  | cons y t ih =>
    cases j with
    | zero =>
      simp only [List.get?_cons_zero] at h
      injection h with h
      subst h
      simpa [List.set] using List.Perm.swap alt y t
    | succ j =>
      simp only [List.get?_cons_succ] at h
      have step1 : (b :: y :: t.set j alt).Perm (y :: b :: t.set j alt) :=
        List.Perm.swap y b (t.set j alt)
      have step2 : (y :: b :: t.set j alt).Perm (y :: alt :: t) := (ih j h).cons y
      have step3 : (y :: alt :: t).Perm (alt :: y :: t) := List.Perm.swap alt y t
      simpa [List.set] using (step1.trans step2).trans step3

/-- Exchanging the entries of two in-range positions permutes. -/
theorem set_set_perm (l : List Song) (i j : Nat) (a b : Song)
    (hi : l.get? i = some a) (hj : l.get? j = some b) :
    ((l.set i b).set j a).Perm l := by
  induction l generalizing i j with
  | nil => simp at hi
  | cons x xs ih =>
    cases i with
    | zero =>
      simp only [List.get?_cons_zero] at hi
      injection hi with hi
      subst hi
      cases j with
      | zero =>
        simp only [List.get?_cons_zero] at hj
        injection hj with hj
        subst hj
        simp [List.set]
      | succ j =>
        simp only [List.get?_cons_succ] at hj
        simpa [List.set] using cons_set_perm xs j b x hj
    | succ i =>
      simp only [List.get?_cons_succ] at hi
      cases j with
      | zero =>
        simp only [List.get?_cons_zero] at hj
        injection hj with hj
        subst hj
        simpa [List.set] using cons_set_perm xs i a x hi
      | succ j =>
        simp only [List.get?_cons_succ] at hj
        simpa [List.set] using (ih i j hi hj).cons x

/-- The destructuring swap permutes the queue. -/
theorem listSwap_perm (l : List Song) (i j : Nat) : (listSwap l i j).Perm l := by
  unfold listSwap
  cases hi : l.get? i with
  | none => exact List.Perm.refl l
  | some a =>
    cases hj : l.get? j with
    | none => exact List.Perm.refl l
    | some b => exact set_set_perm l i j a b hi hj

/-- The Fisher-Yates loop permutes the queue. -/
theorem fyLoop_perm (rand : Nat → ℚ) (k m : Nat) (l : List Song) :
    (fyLoop rand k m l).Perm l := by
  induction m generalizing k l with
  | zero => exact List.Perm.refl l
  | succ m ih =>
    exact (ih (k + 1) _).trans (listSwap_perm l (m + 1) _)

/-! Total play count and weights. -/

/-- The totalPlayCount fold is the sum of the play counts. -/
theorem foldl_playCount (l : List Song) (init : Nat) :
    l.foldl (fun sum song => sum + song.playCount) init =
      init + (l.map Song.playCount).sum := by
  induction l generalizing init with
  | nil => simp
  | cons x rest ih => simp [List.foldl_cons, ih, Nat.add_assoc]

/-- A queue member's play count never exceeds the queue total. -/
theorem mem_le_totalPlayCount (l : List Song) (s : Song) (hs : s ∈ l) :
    s.playCount ≤ totalPlayCount l := by
  unfold totalPlayCount
  rw [foldl_playCount]
  have hmem : s.playCount ∈ l.map Song.playCount := List.mem_map_of_mem _ hs
  have := List.single_le_sum (fun x _ => Nat.zero_le x) _ hmem
  omega

/-- For a song of the source queue, the JS weight (total - playCount) || 1 is
exactly the max(total - playCount, 1) weight the specification states. -/
theorem jsWeight_eq_specWeight (queue : List Song) (s : Song) (hs : s ∈ queue) :
    jsWeight (totalPlayCount queue) s = specWeight (totalPlayCount queue) s := by
  have hle : s.playCount ≤ totalPlayCount queue := mem_le_totalPlayCount queue s hs
  have hcast : ((totalPlayCount queue : ℚ) - (s.playCount : ℚ)) =
      ((totalPlayCount queue - s.playCount : ℕ) : ℚ) := (Nat.cast_sub hle).symm
  unfold jsWeight specWeight
  rw [hcast]
  by_cases h0 : totalPlayCount queue - s.playCount = 0
  · simp [h0]
  · have h1 : 1 ≤ totalPlayCount queue - s.playCount := Nat.one_le_iff_ne_zero.mpr h0
    have h1q : (1 : ℚ) ≤ ((totalPlayCount queue - s.playCount : ℕ) : ℚ) := by
      exact_mod_cast h1
    have hne : ((totalPlayCount queue - s.playCount : ℕ) : ℚ) ≠ 0 := by
      exact_mod_cast h0
    rw [if_neg hne, max_eq_left h1q]

/-- C2 counterexample: on a three-song source the weighted build consumes six
random draws, not one per song: the comparator draws two fresh values at every
invocation, so no single per-song scaled value exists that the output is
sorted by. -/
theorem weighted_one_draw_cex :
    (weightedShuffle (fun _ => 0) [songA, songB, songC]).2 = 6 ∧
    [songA, songB, songC].length = 3 ∧ (6 : Nat) ≠ 3 := by
  with_unfolding_all decide

/-- C2 amended: the weighted build permutes the source; the weight entering
the comparator equals the specified max(total - playCount, 1) for every song
of the source (so it is never zero); and every comparator invocation consumes
exactly two fresh draws of the random stream, rather than one draw per song. -/
theorem weighted_build_amended (rand : Nat → ℚ) (queue : List Song) :
    (getShuffledQueue .weighted rand queue).Perm queue ∧
    (∀ s ∈ queue, jsWeight (totalPlayCount queue) s = specWeight (totalPlayCount queue) s) ∧
    (∀ k a b, (weightedCompare (totalPlayCount queue) rand k a b).2 = k + 2) := by
  refine ⟨sortWithCmp_perm _ 0 queue, ?_, ?_⟩
  · intro s hs
    exact jsWeight_eq_specWeight queue s hs
  · intro k a b
    rfl

/-- Witness for the amended weighted-build theorem on a concrete queue. -/
theorem weighted_build_amended_witness :
    (getShuffledQueue .weighted (fun _ => 0) [songA, songB]).Perm [songA, songB] ∧
    jsWeight (totalPlayCount [songA, songB]) songA =
      specWeight (totalPlayCount [songA, songB]) songA ∧
    (weightedCompare (totalPlayCount [songA, songB]) (fun _ => 0) 0 songA songB).2 = 0 + 2 :=
  ⟨(weighted_build_amended (fun _ => 0) [songA, songB]).1,
   (weighted_build_amended (fun _ => 0) [songA, songB]).2.1 songA (by simp),
   (weighted_build_amended (fun _ => 0) [songA, songB]).2.2 0 songA songB⟩

/-- C8: the random build is a permutation of the source (same multiset of
songs, hence of identities), and it is a deterministic function of the random
stream: equal seeded streams produce the same permutation. -/
theorem random_build_perm (rand : Nat → ℚ) (source : List Song) :
    (getShuffledQueue .random rand source).Perm source ∧
    ∀ rand2 : Nat → ℚ, (∀ k, rand2 k = rand k) →
      getShuffledQueue .random rand2 source = getShuffledQueue .random rand source := by
  constructor
  · exact fyLoop_perm rand 0 (source.length - 1) source
  · intro rand2 h
    rw [funext h]

/-- Witness for the random-build theorem on a concrete source and stream. -/
theorem random_build_perm_witness :
    (getShuffledQueue .random (fun _ => 0) [songA, songB]).Perm [songA, songB] ∧
    getShuffledQueue .random (fun _ => 0) [songA, songB] =
      getShuffledQueue .random (fun _ => 0) [songA, songB] :=
  ⟨(random_build_perm (fun _ => 0) [songA, songB]).1,
   (random_build_perm (fun _ => 0) [songA, songB]).2 (fun _ => 0) (fun _ => rfl)⟩

/-! Playback controller theorems. -/

/-- C4: the Next transition on a loaded state: repeat one restarts the same
track at position 0 without moving the pointer; otherwise the pointer
advances by one; past the end it wraps to 0 for repeat all, while for repeat
none playing becomes false and the pointer stays at the last valid index
(stopped at the end, not idle). -/
theorem playNextSong_spec (st : AppState)
    (h0 : 0 ≤ st.currentSongIndex)
    (hlt : st.currentSongIndex < (st.playQueue.length : Int)) :
    (st.repeatMode = .one → playNextSong st = { st with audioTime := 0 }) ∧
    (st.repeatMode ≠ .one → st.currentSongIndex + 1 < (st.playQueue.length : Int) →
      playNextSong st = { st with currentSongIndex := st.currentSongIndex + 1 }) ∧
    (st.repeatMode = .all → (st.playQueue.length : Int) ≤ st.currentSongIndex + 1 →
      playNextSong st = { st with currentSongIndex := 0 }) ∧
    (st.repeatMode = .none → (st.playQueue.length : Int) ≤ st.currentSongIndex + 1 →
      playNextSong st = { st with isPlaying := false } ∧
      st.currentSongIndex = (st.playQueue.length : Int) - 1) := by
  have hne : st.playQueue.length ≠ 0 := by
    intro h
    rw [h] at hlt
    omega
  refine ⟨?_, ?_, ?_, ?_⟩
  · intro h1
    simp [playNextSong, hne, h1]
  · intro h1 h2
    have hlt2 : ¬ (st.playQueue.length : Int) ≤ st.currentSongIndex + 1 := by omega
    simp [playNextSong, hne, h1, hlt2]
  · intro h1 h2
    simp [playNextSong, hne, h1, h2]
  · intro h1 h2
    refine ⟨?_, by omega⟩
    simp [playNextSong, hne, h1, h2]

/-- Witness for the Next theorem: stopped-at-end on the concrete one-song
state with repeat none. -/
theorem playNextSong_spec_witness :
    playNextSong stEnd = { stEnd with isPlaying := false } ∧
    stEnd.currentSongIndex = (stEnd.playQueue.length : Int) - 1 :=
  (playNextSong_spec stEnd (by with_unfolding_all decide)
    (by with_unfolding_all decide)).2.2.2 rfl (by with_unfolding_all decide)

/-- C5: the Prev transition on a loaded state: an audio position beyond the
3-second scrub-back threshold rewinds the current track to 0 without moving
the pointer; otherwise the pointer moves back by one; below the front it
wraps to the last index for repeat all and otherwise the transition is a
no-op with the cursor on the first track. -/
theorem playPrevSong_spec (st : AppState)
    (h0 : 0 ≤ st.currentSongIndex)
    (hlt : st.currentSongIndex < (st.playQueue.length : Int)) :
    (3 < st.audioTime → playPrevSong st = { st with audioTime := 0 }) ∧
    (st.audioTime ≤ 3 → 0 ≤ st.currentSongIndex - 1 →
      playPrevSong st = { st with currentSongIndex := st.currentSongIndex - 1 }) ∧
    (st.audioTime ≤ 3 → st.currentSongIndex - 1 < 0 → st.repeatMode = .all →
      playPrevSong st = { st with currentSongIndex := (st.playQueue.length : Int) - 1 }) ∧
    (st.audioTime ≤ 3 → st.currentSongIndex - 1 < 0 → st.repeatMode ≠ .all →
      playPrevSong st = st ∧ st.currentSongIndex = 0) := by
  have hne : st.playQueue.length ≠ 0 := by
    intro h
    rw [h] at hlt
    omega
  refine ⟨?_, ?_, ?_, ?_⟩
  · intro h1
    simp [playPrevSong, hne, h1]
  · intro h1 h2
    have hnot3 : ¬ 3 < st.audioTime := not_lt.mpr h1
    have hnotneg : ¬ st.currentSongIndex - 1 < 0 := by omega
    simp [playPrevSong, hne, hnot3, hnotneg]
  · intro h1 h2 h3
    have hnot3 : ¬ 3 < st.audioTime := not_lt.mpr h1
    simp [playPrevSong, hne, hnot3, h2, h3]
  · intro h1 h2 h3
    have hnot3 : ¬ 3 < st.audioTime := not_lt.mpr h1
    refine ⟨?_, by omega⟩
    simp [playPrevSong, hne, hnot3, h2, h3]

/-- Witness for the Prev theorem: restart-current on the concrete state with
the pointer on the second track, 5 seconds in. -/
theorem playPrevSong_spec_witness :
    playPrevSong stMid = { stMid with audioTime := 0 } :=
  (playPrevSong_spec stMid (by with_unfolding_all decide)
    (by with_unfolding_all decide)).1 (by with_unfolding_all decide)

/-- C9 counterexample: seeking to 150 on a track of duration 100 stores the
raw position 150 rather than the clamped 100: Seek does not clamp the stored
position. -/
theorem handleSeek_no_clamp_cex :
    (handleSeek stEnd 150).currentTime = 150 ∧
    specClamp 150 stEnd.duration = 100 ∧ ((150 : ℚ) ≠ 100) := by
  with_unfolding_all decide

/-- C9 amended: Seek stores the raw, unclamped time as the position state,
forwards it to the audio element whose own seek algorithm clamps it to
[0, duration], and leaves the playing flag unchanged. -/
theorem handleSeek_amended (st : AppState) (time : ℚ) :
    (handleSeek st time).currentTime = time ∧
    (handleSeek st time).isPlaying = st.isPlaying ∧
    (handleSeek st time).audioTime = specClamp time st.duration :=
  ⟨rfl, rfl, rfl⟩

/-- C1 evaluation: in one continuous playing session of song a (no pause, no
stop, no pointer change), the position updates at 5s and at 6s each call
incrementPlayCount: the dedup key appends Date.now(), which is fresh at every
effect run, so the later update of the same session fires a second call. Only
a repeat of the very same millisecond timestamp is suppressed by the tracked
set. -/
theorem playCount_double_fire :
    (trackerRun [songA] 0 true [(5, 1000), (6, 1001)]).2 = 2 ∧
    (trackerRun [songA] 0 true [(5, 1000), (6, 1000)]).2 = 1 := by
  with_unfolding_all decide

/-- C3 evaluation: toggling shuffle from none on the queue [a, b] switches
the mode to random yet leaves the queue in source order [a, b], because the
rebuild ran through the getShuffledQueue closure memoized with the old mode
none; the rebuild under the new mode random with the same stream would be
[b, a], a different queue. -/
theorem toggleShuffle_stale_mode :
    (toggleShuffle (fun _ => 0) stShuffle).shuffleMode = .random ∧
    (toggleShuffle (fun _ => 0) stShuffle).playQueue = [songA, songB] ∧
    getShuffledQueue .random (fun _ => 0) stShuffle.playQueue = [songB, songA] ∧
    ([songA, songB] : List Song) ≠ [songB, songA] := by
  with_unfolding_all decide

end MusicPlayer
